import Mathlib

/-!
Verification of the vanguard_fundoffunds allocation/validation/orchestration
core against its natural-language specification.

The Lean definitions below are shallow embeddings of the Python source:

* `funds/vanguard_lifestrat/calculator.py` — the tiered waterfall allocation
  engine (`calculate_fi_weights`, `calculate_equity_weights`,
  `calculate_weights`).  Python/numpy floats are modelled by `ℚ`; the sites
  where the source divides are recorded explicitly so that zero-denominator
  behaviour can be discussed (numpy produces NaN/Inf there, `ℚ` produces `0`;
  the relevant theorems either hypothesise a nonzero denominator or talk
  about the denominator itself).
* `shared/validation/weight_validator.py` — the compliance validator.
* `shared/validation/reconciliation.py` — the day-over-day reconciliation.
* `shared/utils/file_handler.py` — the previous-run lookup.
* `shared/api/factset_client.py` — retry/backoff classification and
  post-fetch validation.
* `orchestration/single_fund_runner.py`, `orchestration/main_pipeline.py` —
  the per-fund runner and the exit-code aggregation.

Pandas data frames keyed by `Benchmark ID`/`symbol` are modelled as
association lists `List (String × _)`; a missing/NaN numeric cell is
`Option.none`.
-/

namespace Vanguard

/-- Absolute sum tolerance: `sum_tolerance_abs` default from
`weight_validator.py` line 39 (`0.0001`). -/
def sumToleranceAbs : ℚ := 1 / 10000

/-! ### Portfolio configuration (`funds/vanguard_lifestrat/config.py`) -/

/-- One entry of `PORTFOLIO_CONFIGS`. -/
structure PortfolioConfig where
  equity_allocation : ℚ
  fixed_income_allocation : ℚ
  base_weight : ℚ
  deriving Repr, DecidableEq

/-- `PORTFOLIO_CONFIGS['LSE20']`. -/
def LSE20 : PortfolioConfig := ⟨20, 80, 77/4⟩

/-- `PORTFOLIO_CONFIGS['LSE40']`. -/
def LSE40 : PortfolioConfig := ⟨40, 60, 77/4⟩

/-- `PORTFOLIO_CONFIGS['LSE60']`. -/
def LSE60 : PortfolioConfig := ⟨60, 40, 77/4⟩

/-- `PORTFOLIO_CONFIGS['LSE80']`. -/
def LSE80 : PortfolioConfig := ⟨80, 20, 77/4⟩

/-- Market-cap input for one portfolio: the `MarketCapIndex` values of the
eleven components that need market data (`MARKET_CAP_REQUIRED_IDS` minus
`SP50`, which is never read, plus nothing else: the two tier-1 components
carry a dummy cap that the calculator never uses in ratio math). -/
structure MarketData where
  -- fixed-income tier 3
  lhmn21140 : ℚ
  lhmn9913  : ℚ
  lhmn21153 : ℚ
  lhmn2004  : ℚ
  lhmn2002  : ℚ
  -- equity tier 2
  i01018 : ℚ
  i01270 : ℚ
  -- equity tier 3
  i00586 : ℚ
  i27049 : ℚ
  i26152 : ℚ
  m180948 : ℚ
  deriving Repr, DecidableEq

/-! ### Fixed-income waterfall (`calculator.py`, `calculate_fi_weights`) -/

/-- The list of fixed-income tier-3 market caps, in base-template order
(`LHMN21140, LHMN9913, LHMN21153, LHMN2004, LHMN2002`). -/
def fiTier3Mcaps (md : MarketData) : List ℚ :=
  [md.lhmn21140, md.lhmn9913, md.lhmn21153, md.lhmn2004, md.lhmn2002]

/-- `fi_tier_3_total_mcap` (calculator.py line 137): the denominator of every
ratio in the fixed-income first pass. -/
def fiTier3TotalMcap (md : MarketData) : ℚ := (fiTier3Mcaps md).sum

/-- Capping step (calculator.py lines 161-168): a tier-3 weight above
`base_weight` is clamped to `base_weight`. -/
def capW (base x : ℚ) : ℚ := if x > base then base else x

/-- Single-pass overflow redistribution (calculator.py lines 157-182) applied
to the first-pass tier-3 weights `w`:
if the capped total falls short of the remaining allocation, the shortfall is
redistributed proportionally over the not-yet-capped weights (equally when
their total is not positive); otherwise the capped weights stand. -/
def fiRedistribute (base remaining : ℚ) (w : List ℚ) : List ℚ :=
  let capped := w.map (capW base)
  let total_capped := capped.sum
  if total_capped < remaining then
    let nc := w.filter (fun x => x < base)
    if nc.isEmpty then capped
    else
      let excess := remaining - total_capped
      let totalNC := nc.sum
      w.map (fun x =>
        if x < base then
          if totalNC > 0 then capW base x + excess * (x / totalNC)
          else excess / (nc.length : ℚ)
        else capW base x)
  else capped

/-- Final fixed-income tier-3 weights (calculator.py lines 140-191):
first pass `remaining * (mcap / total)`, capping, one redistribution pass,
then `min(value, base_weight)` when written back into the frame. -/
def fiTier3Weights (cfg : PortfolioConfig) (md : MarketData) : List ℚ :=
  let base := cfg.base_weight
  let remaining := cfg.fixed_income_allocation - base
  let total := fiTier3TotalMcap md
  let w := (fiTier3Mcaps md).map (fun m => remaining * (m / total))
  (fiRedistribute base remaining w).map (fun x => min x base)

/-- All six fixed-income weights, tier-1 (`LHMN34611`, fixed at
`base_weight`, calculator.py line 188) first. -/
def fiWeights (cfg : PortfolioConfig) (md : MarketData) : List ℚ :=
  cfg.base_weight :: fiTier3Weights cfg md

/-! ### Equity cascade (`calculator.py`, `calculate_equity_weights`) -/

/-- The eight equity weights in source order:
tier 1 `I00010`, tier 2 `I01018, I01270`, tier 3
`I00586, I27049, I26152, 180948`, tier 4 `SP50`. -/
structure EquityWeights where
  i00010 : ℚ
  i01018 : ℚ
  i01270 : ℚ
  i00586 : ℚ
  i27049 : ℚ
  i26152 : ℚ
  w180948 : ℚ
  sp50 : ℚ
  deriving Repr, DecidableEq

/-- `equity_tier_2_total_mcap` (calculator.py line 218). -/
def equityTier2TotalMcap (md : MarketData) : ℚ := md.i01018 + md.i01270

/-- `equity_tier_3_total_mcap` (calculator.py lines 236-243). -/
def equityTier3TotalMcap (md : MarketData) : ℚ :=
  md.i00586 + md.i27049 + md.i26152 + md.m180948

/-- `calculate_equity_weights` (calculator.py lines 194-277):
tier 1 fixed at `base_weight`; tier 2 `min(base, (ea−base)·share)`;
tier 3 `min(base, remaining·share)` of the post-tier-2 remainder, all zero if
that remainder is `≤ 0`; tier 4 `SP50` is `max(0, ea − Σ others)` when the
`I00586` weight reached `base_weight`, else `0`. -/
def calculate_equity_weights (cfg : PortfolioConfig) (md : MarketData) :
    EquityWeights :=
  let base := cfg.base_weight
  let t2T := equityTier2TotalMcap md
  let w18 := min base ((cfg.equity_allocation - base) * (md.i01018 / t2T))
  let w70 := min base ((cfg.equity_allocation - base) * (md.i01270 / t2T))
  let t3T := equityTier3TotalMcap md
  let rem := cfg.equity_allocation - (base + w18 + w70)
  let w586 := if rem ≤ 0 then 0 else min base (rem * (md.i00586 / t3T))
  let w27049 := if rem ≤ 0 then 0 else min base (rem * (md.i27049 / t3T))
  let w26152 := if rem ≤ 0 then 0 else min base (rem * (md.i26152 / t3T))
  let w948 := if rem ≤ 0 then 0 else min base (rem * (md.m180948 / t3T))
  let sp50 :=
    if w586 < base then 0
    else max 0 (cfg.equity_allocation -
      (base + w18 + w70 + (w586 + w27049 + w26152 + w948)))
  ⟨base, w18, w70, w586, w27049, w26152, w948, sp50⟩

/-- The equity weights as a list, in source order. -/
def equityWeightList (cfg : PortfolioConfig) (md : MarketData) : List ℚ :=
  let e := calculate_equity_weights cfg md
  [e.i00010, e.i01018, e.i01270, e.i00586, e.i27049, e.i26152, e.w180948,
    e.sp50]

/-- `calculate_weights` for one portfolio (calculator.py lines 80-117):
the fourteen position weights, fixed income first. -/
def calculate_weights (cfg : PortfolioConfig) (md : MarketData) : List ℚ :=
  fiWeights cfg md ++ equityWeightList cfg md

/-! ### Float (NaN-aware) model of the fixed-income waterfall

The source runs on numpy floats.  When `fi_tier_3_total_mcap` is `0`, the
division at calculator.py line 153 yields NaN/Inf instead of raising.  The
variant below re-traces `calculate_fi_weights` over `Option ℚ`, where `none`
stands for a non-finite float (NaN/Inf): division by zero produces `none`,
any comparison against `none` is `False` (numpy NaN semantics), Python's
`min` keeps a NaN left argument, and sums absorb `none`. -/

/-- numpy float division: zero denominator gives a non-finite result. -/
def nanDiv (a b : ℚ) : Option ℚ := if b = 0 then none else some (a / b)

/-- `x > b` on a possibly-NaN left operand (NaN comparisons are `False`). -/
def ogt (x : Option ℚ) (b : ℚ) : Bool :=
  match x with
  | some v => v > b
  | none => false

/-- `x < b` on a possibly-NaN left operand. -/
def olt (x : Option ℚ) (b : ℚ) : Bool :=
  match x with
  | some v => v < b
  | none => false

/-- Python `min(x, b)`: comparisons against NaN are `False`, so a NaN first
argument is returned unchanged. -/
def nanMin (x : Option ℚ) (b : ℚ) : Option ℚ :=
  match x with
  | some v => some (min v b)
  | none => none

/-- Sum of possibly-NaN values: any NaN poisons the total. -/
def osum (l : List (Option ℚ)) : Option ℚ :=
  l.foldr (fun x acc =>
    match x, acc with
    | some v, some s => some (v + s)
    | _, _ => none) (some 0)

/-- `some x + some y`, `none` absorbing (float addition with NaN). -/
def oadd (x y : Option ℚ) : Option ℚ :=
  match x, y with
  | some v, some w => some (v + w)
  | _, _ => none

/-- NaN-absorbing multiplication. -/
def omul (x y : Option ℚ) : Option ℚ :=
  match x, y with
  | some v, some w => some (v * w)
  | _, _ => none

/-- NaN-absorbing division (NaN in, or zero denominator, gives NaN/Inf). -/
def odiv (x y : Option ℚ) : Option ℚ :=
  match x, y with
  | some v, some w => nanDiv v w
  | _, _ => none

/-- `calculate_fi_weights`, tier-3 part, re-traced over NaN-aware values
(calculator.py lines 140-191).  Mirrors `fiTier3Weights` step for step; on
inputs whose tier-3 total market cap is nonzero the two agree. -/
def fiTier3WeightsF (cfg : PortfolioConfig) (md : MarketData) :
    List (Option ℚ) :=
  let base := cfg.base_weight
  let remaining := cfg.fixed_income_allocation - base
  let total := fiTier3TotalMcap md
  let w := (fiTier3Mcaps md).map
    (fun m => (nanDiv m total).map (fun r => remaining * r))
  let capped := w.map (fun x => if ogt x base then some base else x)
  let total_capped := osum capped
  let redistributed :=
    if olt total_capped remaining then
      let nc := w.filter (fun x => olt x base)
      if nc.isEmpty then capped
      else
        let excess := oadd (some remaining) (total_capped.map Neg.neg)
        let totalNC := osum nc
        w.map (fun x =>
          if olt x base then
            -- `capped_weights[s] += excess * (w[s] / totalNC)`; for an
            -- uncapped entry the stored capped weight is `x` itself
            if ogt totalNC 0 then oadd x (omul excess (odiv x totalNC))
            else excess.map (fun e => e / (nc.length : ℚ))
          else if ogt x base then some base else x)
    else capped
  redistributed.map (fun x => nanMin x base)

/-- Market data whose fixed-income tier-3 market caps are all zero: the
denominator `fi_tier_3_total_mcap` of calculator.py line 153 vanishes. -/
def mdZeroFI : MarketData := ⟨0, 0, 0, 0, 0, 1, 1, 1, 1, 1, 1⟩

/-- Market-cap input exposing the uncapped tier-4 weight: all tier-2 equity
cap sits in `I01018` and all tier-3 equity cap in `I00586`, so both are
clamped to `base_weight` and `SP50` receives the whole residual. -/
def mdCexC1 : MarketData := ⟨1, 1, 1, 1, 1, 1, 0, 1, 0, 0, 0⟩

/-- Market-cap input where `I27049` is capped while `I00586` stays below the
cap, so `SP50` receives zero and the portfolio under-subscribes. -/
def mdCexC2 : MarketData := ⟨1, 1, 1, 1, 1, 1, 1, 1, 9, 0, 0⟩

/-! ### Compliance validator (`shared/validation/weight_validator.py`)

A weight-table row is `(Benchmark ID, Weight)` with a missing/NaN weight
modelled as `none`.  Pandas comparisons against NaN are `False` (`ogt`,
`olt`, `ole`), `sum`/`max` skip NaN, `isnull` detects it.  The produced
error/warning strings interpolate floats, so they are modelled structurally
(constructor per message, carrying the interpolated data). -/

/-- A weight-table row: (`Benchmark ID`, `Weight`). -/
abbrev WRow := String × Option ℚ

/-- `x ≤ b` on a possibly-NaN left operand (NaN comparisons are `False`). -/
def ole (x : Option ℚ) (b : ℚ) : Bool :=
  match x with
  | some v => v ≤ b
  | none => false

/-- `df['Weight'].sum()`: pandas skips NaN. -/
def wsum (rows : List WRow) : ℚ := (rows.filterMap (·.2)).sum

/-- `df['Weight'].max()`: pandas skips NaN; all-NaN gives NaN (`none`). -/
def wmax (rows : List WRow) : Option ℚ := (rows.filterMap (·.2)).max?

/-- Structural rendering of the validator error strings
(weight_validator.py lines 57-86). -/
inductive VError
  | sumErr (portfolio : String) (total : ℚ)
  | ucitsErr (portfolio : String) (ids : List String)
  | negErr (portfolio : String) (ids : List String)
  | missingErr (portfolio : String) (ids : List String)
  deriving Repr, DecidableEq

/-- Structural rendering of the near-cap warning string
(weight_validator.py lines 88-94). -/
inductive VWarn
  | nearCap (portfolio : String) (ids : List String)
  deriving Repr, DecidableEq

/-- The `metrics` map (weight_validator.py lines 96-102); `Metrics.empty`
stands for the `{}` the fund runner passes when combining results. -/
structure Metrics where
  total_weight : ℚ
  max_weight : Option ℚ
  num_positions : Nat
  num_negative : Nat
  num_missing : Nat
  deriving Repr, DecidableEq

/-- The empty `metrics` dict. -/
def Metrics.empty : Metrics := ⟨0, none, 0, 0, 0⟩

/-- `ValidationResult` (weight_validator.py lines 12-18). -/
structure ValidationResult where
  is_valid : Bool
  errors : List VError
  warnings : List VWarn
  metrics : Metrics
  deriving Repr, DecidableEq

/-- `close_to_cap[...].tolist()` (weight_validator.py line 89): positions
with `cap − 0.5 < weight ≤ cap`. -/
def nearCapIds (cap : ℚ) (rows : List WRow) : List String :=
  (rows.filter (fun r => ogt r.2 (cap - 1/2) && ole r.2 cap)).map (·.1)

/-- `WeightValidator.validate` (weight_validator.py lines 41-109). -/
def validate (cap tol : ℚ) (portfolio : String) (rows : List WRow) :
    ValidationResult :=
  let total := wsum rows
  let sumErrs := if |total - 100| > tol then [VError.sumErr portfolio total]
    else []
  let capErrs := if ogt (wmax rows) (cap + tol) then
    [VError.ucitsErr portfolio
      ((rows.filter (fun r => ogt r.2 (cap + tol))).map (·.1))]
    else []
  let negErrs := if rows.any (fun r => olt r.2 0) then
    [VError.negErr portfolio ((rows.filter (fun r => olt r.2 0)).map (·.1))]
    else []
  let missErrs := if rows.any (fun r => r.2.isNone) then
    [VError.missingErr portfolio
      ((rows.filter (fun r => r.2.isNone)).map (·.1))]
    else []
  let errors := sumErrs ++ capErrs ++ negErrs ++ missErrs
  let warnings := if (nearCapIds cap rows).isEmpty then []
    else [VWarn.nearCap portfolio (nearCapIds cap rows)]
  { is_valid := errors.isEmpty
    errors := errors
    warnings := warnings
    metrics :=
      { total_weight := total
        max_weight := wmax rows
        num_positions := rows.length
        num_negative := (rows.filter (fun r => olt r.2 0)).length
        num_missing := (rows.filter (fun r => r.2.isNone)).length } }

/-! ### Reconciliation (`shared/validation/reconciliation.py`)

Weight tables are association lists `(id, weight)`.  The outer merge keyed
on the id column together with `fillna(0)` is modelled by `wlookup` (absent
row ↦ weight 0) over the union of the two key sets.  Alert strings
interpolate floats and are modelled structurally.  The model assumes unique
ids per table (a pandas merge on duplicate keys multiplies rows). -/

/-- Weight of `a` in a table after the outer merge and `fillna(0)`. -/
def wlookup (tbl : List (String × ℚ)) (a : String) : ℚ :=
  match tbl.find? (fun r => r.1 == a) with
  | some r => r.2
  | none => 0

/-- The merged id column: current-table ids (in order) followed by
previous-only ids, as produced by `merge(..., how='outer')`. -/
def mergedIds (current previous : List (String × ℚ)) : List String :=
  current.map (·.1) ++
    (previous.map (·.1)).filter (fun i => !(current.map (·.1)).contains i)

/-- Structural rendering of the alert strings
(reconciliation.py lines 77-89). -/
inductive Alert
  | change (id : String) (prev curr delta : ℚ)
  | newComps (ids : List String)
  | removedComps (ids : List String)
  deriving Repr, DecidableEq

/-- `ReconciliationReport` (reconciliation.py lines 11-17); a change row is
`(id, Weight_previous, Weight_current, Change, Change_Abs)`. -/
structure ReconciliationReport where
  alerts : List Alert
  changes : List (String × ℚ × ℚ × ℚ × ℚ)
  new_components : List String
  removed_components : List String
  deriving Repr, DecidableEq

/-- `Reconciliator.compare_with_previous` (reconciliation.py lines 32-99).
The change table keeps merge order; the final `sort_values('Change_Abs',
ascending=False)` only permutes it and no downstream consumer depends on
the order, so the sort is omitted here. -/
def compare_with_previous (threshold : ℚ)
    (current previous : List (String × ℚ)) : ReconciliationReport :=
  let ids := mergedIds current previous
  let news := ids.filter
    (fun i => wlookup previous i == 0 && decide (wlookup current i > 0))
  let removed := ids.filter
    (fun i => decide (wlookup previous i > 0) && wlookup current i == 0)
  let significant := ids.filter
    (fun i => |wlookup current i - wlookup previous i| > threshold)
  let alerts :=
    significant.map (fun i =>
      Alert.change i (wlookup previous i) (wlookup current i)
        (wlookup current i - wlookup previous i)) ++
    (if news.isEmpty then [] else [Alert.newComps news]) ++
    (if removed.isEmpty then [] else [Alert.removedComps removed])
  { alerts := alerts
    changes := ids.map (fun i =>
      (i, wlookup previous i, wlookup current i,
        wlookup current i - wlookup previous i,
        |wlookup current i - wlookup previous i|))
    new_components := news
    removed_components := removed }

/-! ### Versioned store lookup (`shared/utils/file_handler.py`)

Dates are modelled as day numbers; the on-disk state is a map from day to
the parsed `{fund}_{date}_latest.csv` table when that file (and its
directory) exists.  `get_previous_run` (lines 78-113) parses
`current_date`, subtracts one calendar day, and reads only that day's
`latest` file, returning `None` on any missing piece. -/

/-- `VersionedFileHandler.get_previous_run`: consult exactly the day before.
`store d` is the parsed latest-file table for day `d`, or `none` when the
day directory or latest file is absent. -/
def get_previous_run (store : Nat → Option (List (String × ℚ)))
    (currentDay : Nat) : Option (List (String × ℚ)) :=
  store (currentDay - 1)

/-- The empty report built by `FundRunner._reconcile`
(single_fund_runner.py lines 174-181) when no previous run exists. -/
def emptyReport : ReconciliationReport := ⟨[], [], [], []⟩

/-- `FundRunner._reconcile` (single_fund_runner.py lines 155-183):
disabled reconciliation or a missing previous run yields the empty
report, otherwise the comparison runs against the previous table. -/
def runnerReconcile (enabled : Bool) (threshold : ℚ)
    (store : Nat → Option (List (String × ℚ))) (currentDay : Nat)
    (current : List (String × ℚ)) : ReconciliationReport :=
  if !enabled then emptyReport
  else
    match get_previous_run store currentDay with
    | none => emptyReport
    | some prev => compare_with_previous threshold current prev

/-! ### External data gateway (`shared/api/factset_client.py`)

One network attempt is summarised by an `Attempt`: what `requests.get` plus
JSON parsing yielded.  `fetchWithValidation` mirrors
`_fetch_with_validation` (lines 130-184): the conversion of timeouts and
malformed JSON into `APIConnectionError`, the `401` check, `raise_for_status`
for other error codes, the `data`-field and emptiness checks, null detection
after `to_numeric(..., errors='coerce')`, and the row-count check.  The
retry loop of `get_market_caps` (lines 120-128) is `getMarketCapsAux`; its
second component is the list of back-off sleeps performed. -/

/-- The exception raised by one fetch, by Python class. -/
inductive FetchError
  | apiConnection
  | apiAuth
  | httpStatus (code : Nat)
  | dataUnavailable
  | missingData (ids : List String)
  deriving Repr, DecidableEq

/-- Outcome of the raw `requests.get` + JSON parse for one attempt.
`rows` carries the parsed `data` rows as (`requestId`, numeric-or-null);
`status` is a non-success HTTP code (`raise_for_status` fires for it). -/
inductive Attempt
  | connectionFailure
  | timeout
  | status (code : Nat)
  | invalidJson
  | noDataField
  | rows (rs : List WRow)
  deriving Repr, DecidableEq

/-- `_fetch_with_validation` (factset_client.py lines 130-184). -/
def fetchWithValidation (ids : List String) (a : Attempt) :
    Except FetchError (List (String × ℚ)) :=
  match a with
  | .connectionFailure => .error .apiConnection
  | .timeout => .error .apiConnection
  | .status c => if c == 401 then .error .apiAuth else .error (.httpStatus c)
  | .invalidJson => .error .apiConnection
  | .noDataField => .error .dataUnavailable
  | .rows rs =>
    if rs.isEmpty then .error .dataUnavailable
    else
      let nulls := (rs.filter (fun r => r.2.isNone)).map (·.1)
      if !nulls.isEmpty then .error (.missingData nulls)
      else if rs.length ≠ ids.length then
        .error (.missingData (ids.filter (fun i => !(rs.map (·.1)).contains i)))
      else .ok (rs.filterMap (fun r => r.2.map (fun v => (r.1, v))))

/-- The loop's `except (APIConnectionError, requests.Timeout)` filter
(factset_client.py line 123); a `requests.Timeout` never escapes
`_fetch_with_validation` (it is converted at lines 149-150), so the
retryable class is exactly `APIConnectionError`. -/
def retryable : FetchError → Bool
  | .apiConnection => true
  | _ => false

/-- The retry loop of `get_market_caps` (factset_client.py lines 120-128),
with the current attempt number and remaining fuel; returns the final
outcome and the back-off sleeps performed. -/
def getMarketCapsAux (ids : List String) (attempts : Nat → Attempt)
    (maxRetries : Nat) (retryDelay : ℚ) :
    Nat → Nat → Except FetchError (List (String × ℚ)) × List ℚ
  | 0, _ => (.error .apiConnection, [])
  | fuel + 1, attempt =>
    match fetchWithValidation ids (attempts attempt) with
    | .ok t => (.ok t, [])
    | .error e =>
      if retryable e && attempt != maxRetries then
        let wait := retryDelay * 2 ^ (attempt - 1)
        let rest := getMarketCapsAux ids attempts maxRetries retryDelay fuel
          (attempt + 1)
        (rest.1, wait :: rest.2)
      else (.error e, [])

/-- `get_market_caps`: up to `max_retries` attempts starting at attempt 1.
`attempts i` is what attempt number `i` observes on the wire. -/
def get_market_caps (ids : List String) (attempts : Nat → Attempt)
    (maxRetries : Nat) (retryDelay : ℚ) :
    Except FetchError (List (String × ℚ)) × List ℚ :=
  getMarketCapsAux ids attempts maxRetries retryDelay maxRetries 1

/-- The per-row loop of `_fetch_returns_with_validation`
(factset_client.py lines 433-452): a `requestId` outside the identifier map
raises `DataNotAvailableError`; rows are modelled post-projection, already
carrying the return value of the row's own formula. -/
def processReturnRows (idMap : List (String × String)) :
    List WRow → Except FetchError (List WRow)
  | [] => .ok []
  | (rid, v) :: rest =>
    if (idMap.map (·.1)).contains rid then
      match processReturnRows idMap rest with
      | .ok acc => .ok ((rid, v) :: acc)
      | .error e => .error e
    else .error .dataUnavailable

/-- `_fetch_returns_with_validation` (factset_client.py lines 346-471):
same transport handling as the market-cap path; the row-count check against
the identifier map precedes row processing and raises
`DataNotAvailableError`; null returns are tolerated (logged, kept as NaN);
the final `MissingDataError` length check runs on the processed rows. -/
def fetchReturnsWithValidation (idMap : List (String × String))
    (a : Attempt) : Except FetchError (List WRow) :=
  match a with
  | .connectionFailure => .error .apiConnection
  | .timeout => .error .apiConnection
  | .status c => if c == 401 then .error .apiAuth else .error (.httpStatus c)
  | .invalidJson => .error .apiConnection
  | .noDataField => .error .dataUnavailable
  | .rows rs =>
    if rs.isEmpty then .error .dataUnavailable
    else if rs.length ≠ idMap.length then .error .dataUnavailable
    else
      match processReturnRows idMap rs with
      | .error e => .error e
      | .ok result =>
        if result.length ≠ idMap.length then
          .error (.missingData
            ((idMap.map (·.1)).filter
              (fun i => !(result.map (·.1)).contains i)))
        else .ok result

/-! ### Orchestration (`orchestration/single_fund_runner.py`,
`orchestration/main_pipeline.py`)

`FundRunner.run` is modelled over the outcomes of its steps: the calculation
either yields a weight table or raises (`Except`), validation is the
combined `_validate` result, reconciliation yields alerts, persistence
either yields an output path or raises.  `DailyPipeline.run` first performs
the shared fetch; on any exception there it returns exit code 2 with no
fund processed, otherwise it runs every configured fund and aggregates. -/

/-- Per-fund status strings. -/
inductive FundStatus
  | SUCCESS
  | FAILED
  deriving Repr, DecidableEq

/-- Structural rendering of a fund result's `error` entry: either the
`"Validation errors: ..."` message (single_fund_runner.py line 78) or the
`str(e)` of a caught exception (line 110). -/
inductive RunError
  | validationErrors (errs : List VError)
  | exception (msg : String)
  deriving Repr, DecidableEq

/-- The per-fund result dictionary (single_fund_runner.py lines 74-111):
`output_path` and `warnings` are only present on success, `error` only on
failure. -/
structure RunResult where
  fund : String
  status : FundStatus
  output_path : Option String
  warnings : List (VWarn ⊕ Alert)
  error : Option RunError
  deriving Repr, DecidableEq

/-- `FundRunner._validate` (single_fund_runner.py lines 113-153): validate
each portfolio's rows separately (portfolios whose row selection is empty
are skipped), then combine: concatenated errors and warnings, validity =
no combined error, empty metrics. -/
def runnerValidate (cap tol : ℚ) (portfolios : List String)
    (rows : List WRow) : ValidationResult :=
  let results := portfolios.filterMap (fun p =>
    let pr := rows.filter (fun r => decide ((p ++ "_").toList <:+: r.1.toList))
    if pr.isEmpty then none else some (validate cap tol p pr))
  let combinedErrors := (results.map (·.errors)).flatten
  let combinedWarnings := (results.map (·.warnings)).flatten
  { is_valid := combinedErrors.isEmpty
    errors := combinedErrors
    warnings := combinedWarnings
    metrics := Metrics.empty }

/-- `FundRunner.run` (single_fund_runner.py lines 48-111) over the outcomes
of its steps. -/
def fundRunner_run (fund : String) (calcOutcome : Except String (List WRow))
    (validateStep : List WRow → ValidationResult)
    (reconAlerts : List WRow → List Alert)
    (saveOutcome : List WRow → Except String String) : RunResult :=
  match calcOutcome with
  | .error e => ⟨fund, .FAILED, none, [], some (.exception e)⟩
  | .ok df =>
    let v := validateStep df
    if !v.is_valid then
      ⟨fund, .FAILED, none, [], some (.validationErrors v.errors)⟩
    else
      match saveOutcome df with
      | .error e => ⟨fund, .FAILED, none, [], some (.exception e)⟩
      | .ok path =>
        ⟨fund, .SUCCESS, some path,
          v.warnings.map Sum.inl ++ (reconAlerts df).map Sum.inr, none⟩

/-- The per-fund loop of `DailyPipeline.run` (main_pipeline.py lines
69-84): one result is appended per configured fund. -/
def processFunds (runner : String → RunResult) (funds : List String) :
    List RunResult :=
  funds.map runner

/-- `DailyPipeline._determine_exit_code` (main_pipeline.py lines 341-350). -/
def determine_exit_code (statuses : List FundStatus) : Nat :=
  if statuses.all (fun s => s == FundStatus.SUCCESS) then 0
  else if statuses.all (fun s => s == FundStatus.FAILED) then 2
  else 1

/-- `DailyPipeline.run` (main_pipeline.py lines 46-105): a failed shared
fetch aborts with exit code 2 and no fund processed; otherwise every fund
runs and the exit code aggregates the statuses. -/
def pipeline_run (sharedFetch : Except String Unit)
    (runner : String → RunResult) (funds : List String) :
    Nat × List RunResult :=
  match sharedFetch with
  | .error _ => (2, [])
  | .ok _ =>
    let results := processFunds runner funds
    (determine_exit_code (results.map (·.status)), results)

/-! ### Structural lemmas about the fixed-income waterfall -/

theorem capW_le_left (base x : ℚ) : capW base x ≤ x := by
  unfold capW
  split
  · exact le_of_lt (by assumption)
  · exact le_refl x

theorem capW_le_base (base x : ℚ) : capW base x ≤ base := by
  unfold capW
  split
  · exact le_refl base
  · exact le_of_not_lt (by assumption)

theorem capW_of_lt {base x : ℚ} (h : x < base) : capW base x = x := by
  unfold capW
  exact if_neg (not_lt_of_lt h)

/-- Splitting the sum of a pointwise `if` over the filter and its
complement. -/
theorem sum_map_ite (p : ℚ → Prop) [DecidablePred p] (f g : ℚ → ℚ)
    (l : List ℚ) :
    (l.map (fun x => if p x then f x else g x)).sum =
      ((l.filter (fun x => decide (p x))).map f).sum +
        ((l.filter (fun x => !decide (p x))).map g).sum := by
  induction l with
  | nil => simp
  | cons a t ih =>
    by_cases h : p a <;> simp [h, ih] <;> ring

/-- Over the filtered sublist the filter's predicate holds, so a function
agreeing with the identity there leaves the sum alone. -/
theorem sum_map_filter_congr (p : ℚ → Prop) [DecidablePred p] (f : ℚ → ℚ)
    (l : List ℚ) (h : ∀ x, p x → f x = x) :
    ((l.filter (fun x => decide (p x))).map f).sum =
      (l.filter (fun x => decide (p x))).sum := by
  induction l with
  | nil => simp
  | cons a t ih =>
    by_cases hp : p a
    · simp [hp, ih, h a hp]
    · simp [hp, ih]

theorem sum_map_const_q (c : ℚ) (l : List ℚ) :
    (l.map (fun _ => c)).sum = (l.length : ℚ) * c := by
  induction l with
  | nil => simp
  | cons a t ih =>
    simp only [List.map_cons, List.sum_cons, ih, List.length_cons]
    push_cast
    ring

theorem sum_map_mul_div (e T : ℚ) (l : List ℚ) :
    (l.map (fun x => e * (x / T))).sum = e * (l.sum / T) := by
  induction l with
  | nil => simp
  | cons a t ih =>
    simp only [List.map_cons, List.sum_cons, ih]
    ring

theorem sum_map_add_q (f g : ℚ → ℚ) (l : List ℚ) :
    (l.map (fun x => f x + g x)).sum = (l.map f).sum + (l.map g).sum := by
  induction l with
  | nil => simp
  | cons a t ih =>
    simp only [List.map_cons, List.sum_cons, ih]
    ring

/-- The single-pass redistribution never over-allocates: if the first-pass
weights are nonnegative and sum to at most the remaining allocation, the
redistributed weights also sum to at most the remaining allocation. -/
theorem fiRedistribute_sum_le (base remaining : ℚ) (w : List ℚ)
    (hw : ∀ x ∈ w, 0 ≤ x) (hsum : w.sum ≤ remaining) :
    (fiRedistribute base remaining w).sum ≤ remaining := by
  have hcap : (w.map (capW base)).sum ≤ w.sum := by
    calc (w.map (capW base)).sum ≤ (w.map id).sum :=
          List.sum_le_sum (fun x _ => capW_le_left base x)
      _ = w.sum := by rw [List.map_id]
  unfold fiRedistribute
  simp only []
  split
  case isFalse => exact le_trans hcap hsum
  case isTrue hlt =>
    split
    case isTrue => exact le_trans hcap hsum
    case isFalse hne =>
      -- the capped sum splits over the uncapped entries and the rest
      have hsplitc : (w.map (capW base)).sum =
          ((w.filter (fun x => decide (x < base))).map (capW base)).sum +
            ((w.filter (fun x => !decide (x < base))).map (capW base)).sum := by
        have := sum_map_ite (fun x => x < base) (capW base) (capW base) w
        simpa using this
      have hccongr :
          ((w.filter (fun x => decide (x < base))).map (capW base)).sum =
            (w.filter (fun x => decide (x < base))).sum :=
        sum_map_filter_congr (fun x => x < base) (capW base) w
          (fun x hx => capW_of_lt hx)
      have hncnn : 0 ≤ (w.filter (fun x => decide (x < base))).sum :=
        List.sum_nonneg (fun x hx => hw x (List.mem_of_mem_filter hx))
      by_cases hT : (w.filter (fun x => decide (x < base))).sum > 0
      · -- proportional redistribution: the total lands exactly on `remaining`
        simp only [if_pos hT]
        have hsplit := sum_map_ite (fun x => x < base)
          (fun x => capW base x +
            (remaining - (w.map (capW base)).sum) *
              (x / (w.filter (fun x => decide (x < base))).sum))
          (capW base) w
        rw [hsplit]
        have hadd := sum_map_add_q (capW base)
          (fun x => (remaining - (w.map (capW base)).sum) *
            (x / (w.filter (fun x => decide (x < base))).sum))
          (w.filter (fun x => decide (x < base)))
        rw [hadd, hccongr, sum_map_mul_div,
          div_self (ne_of_gt hT), mul_one]
        have : (w.filter (fun x => decide (x < base))).sum +
            ((w.filter (fun x => !decide (x < base))).map (capW base)).sum =
            (w.map (capW base)).sum := by
          rw [hsplitc, hccongr]
        linarith
      · -- degenerate redistribution: equal split of the excess
        simp only [if_neg hT]
        have hT0 : (w.filter (fun x => decide (x < base))).sum = 0 :=
          le_antisymm (le_of_not_lt hT) hncnn
        have hsplit := sum_map_ite (fun x => x < base)
          (fun _ => (remaining - (w.map (capW base)).sum) /
            ((w.filter (fun x => decide (x < base))).length : ℚ))
          (capW base) w
        rw [hsplit]
        have hconst := sum_map_const_q
          ((remaining - (w.map (capW base)).sum) /
            ((w.filter (fun x => decide (x < base))).length : ℚ))
          (w.filter (fun x => decide (x < base)))
        rw [hconst]
        have hlen : ((w.filter (fun x => decide (x < base))).length : ℚ) ≠ 0 := by
          have : w.filter (fun x => decide (x < base)) ≠ [] := by
            intro h
            exact hne (by simp [h])
          have hpos : 0 < (w.filter (fun x => decide (x < base))).length :=
            List.length_pos.mpr this
          exact_mod_cast Nat.pos_iff_ne_zero.mp hpos
        rw [mul_div_cancel₀ _ hlen]
        have : ((w.filter (fun x => !decide (x < base))).map (capW base)).sum =
            (w.map (capW base)).sum := by
          rw [hsplitc, hccongr, hT0, zero_add]
        linarith

/-- The final fixed-income tier-3 weights never over-subscribe the tier's
allocation `fixed_income_allocation − base_weight`. -/
theorem fiTier3Weights_sum_le (cfg : PortfolioConfig) (md : MarketData)
    (hT : 0 < fiTier3TotalMcap md)
    (hm : ∀ m ∈ fiTier3Mcaps md, 0 ≤ m)
    (hr : 0 ≤ cfg.fixed_income_allocation - cfg.base_weight) :
    (fiTier3Weights cfg md).sum ≤
      cfg.fixed_income_allocation - cfg.base_weight := by
  unfold fiTier3Weights
  simp only []
  have hmin : ((fiRedistribute cfg.base_weight
        (cfg.fixed_income_allocation - cfg.base_weight)
        ((fiTier3Mcaps md).map
          (fun m => (cfg.fixed_income_allocation - cfg.base_weight) *
            (m / fiTier3TotalMcap md)))).map
          (fun x => min x cfg.base_weight)).sum ≤
      (fiRedistribute cfg.base_weight
        (cfg.fixed_income_allocation - cfg.base_weight)
        ((fiTier3Mcaps md).map
          (fun m => (cfg.fixed_income_allocation - cfg.base_weight) *
            (m / fiTier3TotalMcap md)))).sum := by
    calc ((fiRedistribute _ _ _).map (fun x => min x cfg.base_weight)).sum
        ≤ ((fiRedistribute _ _ _).map id).sum :=
          List.sum_le_sum (fun x _ => min_le_left x cfg.base_weight)
      _ = _ := by rw [List.map_id]
  refine le_trans hmin (fiRedistribute_sum_le _ _ _ ?_ ?_)
  · intro x hx
    rcases List.mem_map.mp hx with ⟨m, hmem, rfl⟩
    have h0m : 0 ≤ m := hm m hmem
    positivity
  · rw [sum_map_mul_div]
    have hTT : (fiTier3Mcaps md).sum / fiTier3TotalMcap md = 1 := by
      rw [fiTier3TotalMcap]
      exact div_self (ne_of_gt hT)
    rw [hTT, mul_one]

/-- All six fixed-income weights sum to at most
`fixed_income_allocation`. -/
theorem fiWeights_sum_le (cfg : PortfolioConfig) (md : MarketData)
    (hT : 0 < fiTier3TotalMcap md)
    (hm : ∀ m ∈ fiTier3Mcaps md, 0 ≤ m)
    (hr : cfg.base_weight ≤ cfg.fixed_income_allocation) :
    (fiWeights cfg md).sum ≤ cfg.fixed_income_allocation := by
  unfold fiWeights
  rw [List.sum_cons]
  have := fiTier3Weights_sum_le cfg md hT hm (by linarith)
  linarith

/-- The eight equity weights sum to at most `equity_allocation`. -/
theorem equityWeightList_sum_le (cfg : PortfolioConfig) (md : MarketData)
    (h2 : 0 < equityTier2TotalMcap md)
    (h3 : 0 < equityTier3TotalMcap md)
    (hm18 : 0 ≤ md.i01018) (hm70 : 0 ≤ md.i01270)
    (hm586 : 0 ≤ md.i00586) (hm27049 : 0 ≤ md.i27049)
    (hm26152 : 0 ≤ md.i26152) (hm948 : 0 ≤ md.m180948)
    (hb : 0 ≤ cfg.base_weight)
    (hbe : cfg.base_weight ≤ cfg.equity_allocation) :
    (equityWeightList cfg md).sum ≤ cfg.equity_allocation := by
  unfold equityWeightList calculate_equity_weights
  simp only [List.sum_cons, List.sum_nil, add_zero]
  set base := cfg.base_weight with hbase
  set ea := cfg.equity_allocation with hea
  set T2 := equityTier2TotalMcap md with hT2
  set T3 := equityTier3TotalMcap md with hT3
  set w18 := min base ((ea - base) * (md.i01018 / T2)) with hw18
  set w70 := min base ((ea - base) * (md.i01270 / T2)) with hw70
  have ht2sum : w18 + w70 ≤ ea - base := by
    have h18 : w18 ≤ (ea - base) * (md.i01018 / T2) :=
      min_le_right _ _
    have h70 : w70 ≤ (ea - base) * (md.i01270 / T2) :=
      min_le_right _ _
    have hsum : (ea - base) * (md.i01018 / T2) +
        (ea - base) * (md.i01270 / T2) = ea - base := by
      have hne : T2 ≠ 0 := ne_of_gt h2
      field_simp
      rw [hT2, equityTier2TotalMcap]
      ring
    linarith
  have hw18nn : 0 ≤ w18 := by
    apply le_min hb
    have : 0 ≤ md.i01018 / T2 := div_nonneg hm18 (le_of_lt h2)
    nlinarith
  have hw70nn : 0 ≤ w70 := by
    apply le_min hb
    have : 0 ≤ md.i01270 / T2 := div_nonneg hm70 (le_of_lt h2)
    nlinarith
  by_cases hrem : ea - (base + w18 + w70) ≤ 0
  · simp only [if_pos hrem]
    have hsp : (if (0:ℚ) < base then (0:ℚ)
        else max 0 (ea - (base + w18 + w70 + (0 + 0 + 0 + 0)))) = 0 := by
      split
      · rfl
      · have : ea - (base + w18 + w70 + (0 + 0 + 0 + 0)) ≤ 0 := by linarith
        exact max_eq_left this
    rw [hsp]
    linarith
  · simp only [if_neg hrem]
    push_neg at hrem
    set rem := ea - (base + w18 + w70) with hremdef
    set w586 := min base (rem * (md.i00586 / T3)) with hw586
    set w27049 := min base (rem * (md.i27049 / T3)) with hw27049
    set w26152 := min base (rem * (md.i26152 / T3)) with hw26152
    set w948 := min base (rem * (md.m180948 / T3)) with hw948
    have ht3sum : w586 + w27049 + w26152 + w948 ≤ rem := by
      have a1 : w586 ≤ rem * (md.i00586 / T3) := min_le_right _ _
      have a2 : w27049 ≤ rem * (md.i27049 / T3) := min_le_right _ _
      have a3 : w26152 ≤ rem * (md.i26152 / T3) := min_le_right _ _
      have a4 : w948 ≤ rem * (md.m180948 / T3) := min_le_right _ _
      have hsum : rem * (md.i00586 / T3) + rem * (md.i27049 / T3) +
          rem * (md.i26152 / T3) + rem * (md.m180948 / T3) = rem := by
        have hne : T3 ≠ 0 := ne_of_gt h3
        field_simp
        rw [hT3, equityTier3TotalMcap]
        ring
      linarith
    split
    · -- tier-4 forced to zero
      linarith
    · -- tier-4 takes the floored residual
      rcases le_total (ea - (base + w18 + w70 +
          (w586 + w27049 + w26152 + w948))) 0 with hres | hres
      · rw [max_eq_left hres]
        linarith
      · rw [max_eq_right hres]
        linarith

/-! ### Claims C1 and C2 -/

/-- Claim C1, counterexample.  On `mdCexC1` the LSE80 portfolio's `SP50`
weight is `89/4 = 22.25`, strictly above
`base_weight + sum_tolerance_abs = 19.2501`: the cap invariant does not hold
for the tier-4 overflow security. -/
theorem cap_invariant_counterexample :
    calculate_weights LSE80 mdCexC1 =
      [77/4, 3/20, 3/20, 3/20, 3/20, 3/20, 77/4, 77/4, 0, 77/4, 0, 0, 0,
        89/4] ∧
    ¬ (∀ x ∈ calculate_weights LSE80 mdCexC1,
        x ≤ LSE80.base_weight + sumToleranceAbs) := by
  have hlist : calculate_weights LSE80 mdCexC1 =
      [77/4, 3/20, 3/20, 3/20, 3/20, 3/20, 77/4, 77/4, 0, 77/4, 0, 0, 0,
        89/4] := by
    norm_num [calculate_weights, fiWeights, fiTier3Weights, fiRedistribute,
      capW, fiTier3TotalMcap, fiTier3Mcaps, equityWeightList,
      calculate_equity_weights, equityTier2TotalMcap, equityTier3TotalMcap,
      LSE80, mdCexC1]
  refine ⟨hlist, fun hall => ?_⟩
  have h := hall (89/4) (by rw [hlist]; simp)
  norm_num [LSE80, sumToleranceAbs] at h

/-- Claim C1 (amended): every position other than the tier-4 overflow
security `SP50` — the tier-1 fixed positions, all fixed-income tier-3
positions and the equity tier-2/tier-3 positions — has weight at most
`base_weight + sum_tolerance_abs` (the bound `base_weight` itself holds),
provided `base_weight ≥ 0` and every tier total market cap the source
divides by is nonzero.  The denominator hypotheses restrict the statement
to inputs where the `ℚ` embedding is faithful to the float source: at a
zero tier total the source divides by zero and propagates NaN weights
instead (claim C3, `zero_denominator_not_guarded`). -/
theorem cap_invariant_except_sp50 (cfg : PortfolioConfig) (md : MarketData)
    (hb : 0 ≤ cfg.base_weight)
    (hT : fiTier3TotalMcap md ≠ 0)
    (h2 : equityTier2TotalMcap md ≠ 0)
    (h3 : equityTier3TotalMcap md ≠ 0) :
    (∀ x ∈ fiWeights cfg md, x ≤ cfg.base_weight + sumToleranceAbs) ∧
    (calculate_equity_weights cfg md).i00010 ≤
      cfg.base_weight + sumToleranceAbs ∧
    (calculate_equity_weights cfg md).i01018 ≤
      cfg.base_weight + sumToleranceAbs ∧
    (calculate_equity_weights cfg md).i01270 ≤
      cfg.base_weight + sumToleranceAbs ∧
    (calculate_equity_weights cfg md).i00586 ≤
      cfg.base_weight + sumToleranceAbs ∧
    (calculate_equity_weights cfg md).i27049 ≤
      cfg.base_weight + sumToleranceAbs ∧
    (calculate_equity_weights cfg md).i26152 ≤
      cfg.base_weight + sumToleranceAbs ∧
    (calculate_equity_weights cfg md).w180948 ≤
      cfg.base_weight + sumToleranceAbs := by
  have htol : (0:ℚ) ≤ sumToleranceAbs := by norm_num [sumToleranceAbs]
  refine ⟨?_, ?_, ?_, ?_, ?_, ?_, ?_, ?_⟩
  · intro x hx
    unfold fiWeights at hx
    rcases List.mem_cons.mp hx with h | h
    · rw [h]; linarith
    · unfold fiTier3Weights at h
      simp only [] at h
      rcases List.mem_map.mp h with ⟨y, _, rfl⟩
      have := min_le_right y cfg.base_weight
      linarith
  all_goals simp only [calculate_equity_weights]
  · linarith
  · have := min_le_left cfg.base_weight
      ((cfg.equity_allocation - cfg.base_weight) *
        (md.i01018 / equityTier2TotalMcap md))
    linarith
  · have := min_le_left cfg.base_weight
      ((cfg.equity_allocation - cfg.base_weight) *
        (md.i01270 / equityTier2TotalMcap md))
    linarith
  all_goals split
  all_goals first
    | linarith
    | exact le_trans (min_le_left _ _) (by linarith)

/-- Claim C1, witness: the amended cap bound instantiated at the LSE80
profile and the concrete market data `mdCexC1`, whose tier totals are all
nonzero. -/
theorem cap_invariant_except_sp50_witness :
    (0:ℚ) ≤ LSE80.base_weight ∧
    fiTier3TotalMcap mdCexC1 ≠ 0 ∧
    equityTier2TotalMcap mdCexC1 ≠ 0 ∧
    equityTier3TotalMcap mdCexC1 ≠ 0 ∧
    (calculate_equity_weights LSE80 mdCexC1).i01018 ≤
      LSE80.base_weight + sumToleranceAbs :=
  ⟨by norm_num [LSE80],
    by norm_num [fiTier3TotalMcap, fiTier3Mcaps, mdCexC1],
    by norm_num [equityTier2TotalMcap, mdCexC1],
    by norm_num [equityTier3TotalMcap, mdCexC1],
    (cap_invariant_except_sp50 LSE80 mdCexC1 (by norm_num [LSE80])
      (by norm_num [fiTier3TotalMcap, fiTier3Mcaps, mdCexC1])
      (by norm_num [equityTier2TotalMcap, mdCexC1])
      (by norm_num [equityTier3TotalMcap, mdCexC1])).2.2.1⟩

/-- Claim C2, counterexample.  On `mdCexC2` the LSE80 portfolio sums to
`3969/40 = 99.225`, which is `0.775` away from `100`, far outside
`sum_tolerance_abs = 0.0001`: the tier-3 equity security `I27049` is capped
while `I00586` stays below the cap, so `SP50` is forced to zero and the
clamped allocation is never recovered. -/
theorem sum_invariant_counterexample :
    (calculate_weights LSE80 mdCexC2).sum = 3969/40 ∧
    ¬ (|(calculate_weights LSE80 mdCexC2).sum - 100| ≤ sumToleranceAbs) := by
  have h : (calculate_weights LSE80 mdCexC2).sum = 3969/40 := by
    norm_num [calculate_weights, fiWeights, fiTier3Weights, fiRedistribute,
      capW, fiTier3TotalMcap, fiTier3Mcaps, equityWeightList,
      calculate_equity_weights, equityTier2TotalMcap, equityTier3TotalMcap,
      LSE80, mdCexC2]
  refine ⟨h, ?_⟩
  rw [h, show (3969:ℚ)/40 - 100 = -(31/40) by norm_num, abs_neg,
    abs_of_nonneg (by norm_num)]
  norm_num [sumToleranceAbs]

/-- Claim C2 (amended): for every market-cap input with nonnegative caps and
positive tier totals, the computed portfolio weights sum to **at most**
`fixed_income_allocation + equity_allocation` (100 for every configured
profile); the sum can, however, fall strictly below `100 − tolerance` when
capping occurs, as the counterexample shows. -/
theorem portfolio_sum_le_allocations (cfg : PortfolioConfig)
    (md : MarketData)
    (hT : 0 < fiTier3TotalMcap md)
    (hm : ∀ m ∈ fiTier3Mcaps md, 0 ≤ m)
    (h2 : 0 < equityTier2TotalMcap md)
    (h3 : 0 < equityTier3TotalMcap md)
    (hm18 : 0 ≤ md.i01018) (hm70 : 0 ≤ md.i01270)
    (hm586 : 0 ≤ md.i00586) (hm27049 : 0 ≤ md.i27049)
    (hm26152 : 0 ≤ md.i26152) (hm948 : 0 ≤ md.m180948)
    (hb : 0 ≤ cfg.base_weight)
    (hbf : cfg.base_weight ≤ cfg.fixed_income_allocation)
    (hbe : cfg.base_weight ≤ cfg.equity_allocation) :
    (calculate_weights cfg md).sum ≤
      cfg.fixed_income_allocation + cfg.equity_allocation := by
  unfold calculate_weights
  rw [List.sum_append]
  have h1 := fiWeights_sum_le cfg md hT hm hbf
  have h2' := equityWeightList_sum_le cfg md h2 h3 hm18 hm70 hm586 hm27049
    hm26152 hm948 hb hbe
  linarith

/-- Claim C2, witness: the amended sum bound instantiated at LSE80 and the
concrete market data `mdCexC2` gives a total of at most 100. -/
theorem portfolio_sum_le_allocations_witness :
    (calculate_weights LSE80 mdCexC2).sum ≤ 100 := by
  have h := portfolio_sum_le_allocations LSE80 mdCexC2
    (by norm_num [fiTier3TotalMcap, fiTier3Mcaps, mdCexC2])
    (by intro m hm; fin_cases hm <;> norm_num [mdCexC2])
    (by norm_num [equityTier2TotalMcap, mdCexC2])
    (by norm_num [equityTier3TotalMcap, mdCexC2])
    (by norm_num [mdCexC2]) (by norm_num [mdCexC2])
    (by norm_num [mdCexC2]) (by norm_num [mdCexC2])
    (by norm_num [mdCexC2]) (by norm_num [mdCexC2])
    (by norm_num [LSE80]) (by norm_num [LSE80]) (by norm_num [LSE80])
  have : LSE80.fixed_income_allocation + LSE80.equity_allocation = 100 := by
    norm_num [LSE80]
  linarith

/-! ### Claim C3 -/

/-- Claim C3 (code bug): when every fixed-income tier-3 market cap is zero,
the denominator `fi_tier_3_total_mcap` of the ratio at calculator.py line
153 is zero, yet the source has no guard: no `ZeroAllocationBasis`
condition exists anywhere in the repository.  The division executes and, in
float semantics, all five tier-3 weights come out NaN (`none`) and are
written into the table instead of the computation failing. -/
theorem zero_denominator_not_guarded :
    fiTier3TotalMcap mdZeroFI = 0 ∧
    fiTier3WeightsF LSE20 mdZeroFI = [none, none, none, none, none] := by
  constructor
  · norm_num [fiTier3TotalMcap, fiTier3Mcaps, mdZeroFI]
  · norm_num [fiTier3WeightsF, fiTier3TotalMcap, fiTier3Mcaps, nanDiv, ogt,
      olt, osum, oadd, nanMin, LSE20, mdZeroFI]

/-! ### Claim C4 -/

/-- Characterisation of the near-cap filter of weight_validator.py line 89:
an id is listed iff it carries a weight in the interval `(cap − 0.5, cap]` —
inclusive at the cap. -/
theorem nearCapIds_mem_iff (cap : ℚ) (rows : List WRow) (a : String) :
    a ∈ nearCapIds cap rows ↔
      ∃ w : ℚ, (a, some w) ∈ rows ∧ cap - 1/2 < w ∧ w ≤ cap := by
  unfold nearCapIds
  constructor
  · intro h
    rcases List.mem_map.mp h with ⟨r, hr, rfl⟩
    rcases List.mem_filter.mp hr with ⟨hmem, hcond⟩
    rw [Bool.and_eq_true] at hcond
    rcases hcond with ⟨h1, h2⟩
    obtain ⟨id, w?⟩ := r
    cases w? with
    | none => simp [ogt] at h1
    | some w =>
      refine ⟨w, hmem, ?_, ?_⟩
      · simpa [ogt] using h1
      · simpa [ole] using h2
  · rintro ⟨w, hmem, h1, h2⟩
    refine List.mem_map.mpr ⟨(a, some w),
      List.mem_filter.mpr ⟨hmem, ?_⟩, rfl⟩
    rw [Bool.and_eq_true]
    constructor
    · simpa [ogt] using h1
    · simpa [ole] using h2

/-- Claim C4 (code bug): on a compliant LSE80 table whose position
`LSE80_A` sits **exactly at the cap** (weight `77/4 = 19.25` with cap
`19.25`), the validator reports no error but its near-cap warning names
`LSE80_A`: the filter at weight_validator.py line 89 uses `Weight ≤ cap`,
so an at-cap position is warned about, contradicting the claim (and the
intent recorded in `test_weight_validator.py`, `(19.25, False)  # At cap,
no warning`). -/
theorem at_cap_position_is_warned :
    (validate (77/4) sumToleranceAbs "LSE80"
      [("LSE80_A", some (77/4)), ("LSE80_B", some (323/20)),
        ("LSE80_C", some (323/20)), ("LSE80_D", some (323/20)),
        ("LSE80_E", some (323/20)), ("LSE80_F", some (323/20))]).errors
      = [] ∧
    (validate (77/4) sumToleranceAbs "LSE80"
      [("LSE80_A", some (77/4)), ("LSE80_B", some (323/20)),
        ("LSE80_C", some (323/20)), ("LSE80_D", some (323/20)),
        ("LSE80_E", some (323/20)), ("LSE80_F", some (323/20))]).warnings
      = [VWarn.nearCap "LSE80" ["LSE80_A"]] := by
  constructor <;>
    norm_num [validate, nearCapIds, wsum, wmax, ogt, ole, olt,
      sumToleranceAbs, List.filterMap, List.max?, List.filter]

/-! ### Claim C5 -/

/-- Claim C5: exit-code aggregation.  A failed shared market-data fetch
aborts the run with exit code 2 and no fund processed; otherwise, over the
per-fund results of a (nonempty) run: all `SUCCESS` gives exit code 0, all
`FAILED` gives 2, and a mix gives 1. -/
theorem exit_code_aggregation (funds : List String)
    (runner : String → RunResult) (e : String) (hne : funds ≠ []) :
    pipeline_run (.error e) runner funds = (2, []) ∧
    ((∀ r ∈ processFunds runner funds, r.status = FundStatus.SUCCESS) →
      pipeline_run (.ok ()) runner funds = (0, processFunds runner funds)) ∧
    ((∀ r ∈ processFunds runner funds, r.status = FundStatus.FAILED) →
      pipeline_run (.ok ()) runner funds = (2, processFunds runner funds)) ∧
    ((∃ r ∈ processFunds runner funds, r.status = FundStatus.SUCCESS) →
      (∃ r ∈ processFunds runner funds, r.status = FundStatus.FAILED) →
      pipeline_run (.ok ()) runner funds = (1, processFunds runner funds)) := by
  have hres : processFunds runner funds ≠ [] := by
    unfold processFunds
    intro h
    exact hne (List.map_eq_nil_iff.mp h)
  refine ⟨rfl, ?_, ?_, ?_⟩
  · intro hall
    have h1 : ((processFunds runner funds).map (·.status)).all
        (fun s => s == FundStatus.SUCCESS) = true := by
      rw [List.all_eq_true]
      intro s hs
      rcases List.mem_map.mp hs with ⟨r, hr, rfl⟩
      simp [hall r hr]
    simp [pipeline_run, determine_exit_code, h1]
  · intro hall
    obtain ⟨r0, hr0⟩ := List.exists_mem_of_ne_nil _ hres
    have h1 : ((processFunds runner funds).map (·.status)).all
        (fun s => s == FundStatus.SUCCESS) = false := by
      rw [List.all_eq_false]
      exact ⟨r0.status, List.mem_map.mpr ⟨r0, hr0, rfl⟩,
        by simp [hall r0 hr0]⟩
    have h2 : ((processFunds runner funds).map (·.status)).all
        (fun s => s == FundStatus.FAILED) = true := by
      rw [List.all_eq_true]
      intro s hs
      rcases List.mem_map.mp hs with ⟨r, hr, rfl⟩
      simp [hall r hr]
    simp [pipeline_run, determine_exit_code, h1, h2]
  · rintro ⟨rs, hrs, hrsS⟩ ⟨rf, hrf, hrfF⟩
    have h1 : ((processFunds runner funds).map (·.status)).all
        (fun s => s == FundStatus.SUCCESS) = false := by
      rw [List.all_eq_false]
      exact ⟨rf.status, List.mem_map.mpr ⟨rf, hrf, rfl⟩, by simp [hrfF]⟩
    have h2 : ((processFunds runner funds).map (·.status)).all
        (fun s => s == FundStatus.FAILED) = false := by
      rw [List.all_eq_false]
      exact ⟨rs.status, List.mem_map.mpr ⟨rs, hrs, rfl⟩, by simp [hrsS]⟩
    simp [pipeline_run, determine_exit_code, h1, h2]

/-- Claim C5, witness: one fund whose runner fails gives exit code 2, by
the all-`FAILED` clause of the aggregation theorem at a concrete input. -/
theorem exit_code_aggregation_witness :
    pipeline_run (.ok ())
      (fun f => ⟨f, .FAILED, none, [], some (.exception "boom")⟩)
      ["vanguard_lifestrat"] =
    (2, processFunds
      (fun f => ⟨f, .FAILED, none, [], some (.exception "boom")⟩)
      ["vanguard_lifestrat"]) := by
  have h := exit_code_aggregation ["vanguard_lifestrat"]
    (fun f => ⟨f, .FAILED, none, [], some (.exception "boom")⟩) "x"
    (by simp)
  refine h.2.2.1 ?_
  intro r hr
  simp only [processFunds, List.map_cons, List.map_nil,
    List.mem_singleton] at hr
  rw [hr]

/-! ### Claim C6 -/

/-- Claim C6: when validation of a fund's computed table yields at least one
error, the fund's result is `FAILED`, its `error` entry records exactly the
validation errors, it carries no output path (nothing is persisted), and
the pipeline still produces one result per configured fund. -/
theorem validation_failure_is_fund_scoped (fund : String) (df : List WRow)
    (validateStep : List WRow → ValidationResult)
    (reconAlerts : List WRow → List Alert)
    (saveOutcome : List WRow → Except String String)
    (funds : List String) (runner : String → RunResult)
    (herr : (validateStep df).errors ≠ [])
    (hinv : (validateStep df).is_valid = (validateStep df).errors.isEmpty) :
    (fundRunner_run fund (.ok df) validateStep reconAlerts
        saveOutcome).status = FundStatus.FAILED ∧
    (fundRunner_run fund (.ok df) validateStep reconAlerts
        saveOutcome).output_path = none ∧
    (fundRunner_run fund (.ok df) validateStep reconAlerts
        saveOutcome).error =
      some (.validationErrors (validateStep df).errors) ∧
    (processFunds runner funds).length = funds.length ∧
    (∀ g ∈ funds, runner g ∈ processFunds runner funds) := by
  have hvalid : (validateStep df).is_valid = false := by
    rw [hinv]
    exact List.isEmpty_eq_false.mpr herr
  have hrun : fundRunner_run fund (.ok df) validateStep reconAlerts
      saveOutcome =
      ⟨fund, .FAILED, none, [],
        some (.validationErrors (validateStep df).errors)⟩ := by
    simp [fundRunner_run, hvalid]
  refine ⟨by rw [hrun], by rw [hrun], by rw [hrun], ?_, ?_⟩
  · unfold processFunds
    exact List.length_map _ _
  · intro g hg
    exact List.mem_map.mpr ⟨g, hg, rfl⟩

/-- Claim C6, witness: a table with a UCITS violation (`LSE80_A` at weight
20 against cap 19.25) run through the real validator makes the fund fail
with that validation error recorded and no output path, per the theorem. -/
theorem validation_failure_is_fund_scoped_witness :
    (fundRunner_run "vanguard_lifestrat"
        (.ok [("LSE80_A", some 20), ("LSE80_B", some 16),
          ("LSE80_C", some 16), ("LSE80_D", some 16), ("LSE80_E", some 16),
          ("LSE80_F", some 16)])
        (validate (77/4) sumToleranceAbs "LSE80") (fun _ => [])
        (fun _ => .ok "output/x.csv")).status = FundStatus.FAILED ∧
    (fundRunner_run "vanguard_lifestrat"
        (.ok [("LSE80_A", some 20), ("LSE80_B", some 16),
          ("LSE80_C", some 16), ("LSE80_D", some 16), ("LSE80_E", some 16),
          ("LSE80_F", some 16)])
        (validate (77/4) sumToleranceAbs "LSE80") (fun _ => [])
        (fun _ => .ok "output/x.csv")).output_path = none := by
  have herr : (validate (77/4) sumToleranceAbs "LSE80"
      [("LSE80_A", some 20), ("LSE80_B", some 16), ("LSE80_C", some 16),
        ("LSE80_D", some 16), ("LSE80_E", some 16),
        ("LSE80_F", some 16)]).errors ≠ [] := by
    norm_num [validate, nearCapIds, wsum, wmax, ogt, ole, olt,
      sumToleranceAbs, List.filterMap, List.max?, List.filter]
  have h := validation_failure_is_fund_scoped "vanguard_lifestrat" _
    (validate (77/4) sumToleranceAbs "LSE80") (fun _ => [])
    (fun _ => .ok "output/x.csv") [] (fun f => fundRunner_run f
      (.error "unused") (validate (77/4) sumToleranceAbs "LSE80")
      (fun _ => []) (fun _ => .ok "output/x.csv"))
    herr rfl
  exact ⟨h.1, h.2.1⟩

/-! ### Claim C7 -/

/-- Trace of the retry loop when every attempt fails retryably: the loop
walks attempts `attempt, attempt+1, …, maxR`, sleeping
`d·2^(i−1)` after each non-final attempt `i`, and surfaces the final
attempt's error. -/
theorem getMarketCapsAux_all_retryable (ids : List String)
    (attempts : Nat → Attempt) (maxR : Nat) (d : ℚ)
    (hall : ∀ i, 1 ≤ i → i ≤ maxR →
      ∃ e, fetchWithValidation ids (attempts i) = .error e ∧
        retryable e = true) :
    ∀ fuel attempt, 1 ≤ fuel → 1 ≤ attempt → attempt + fuel = maxR + 1 →
      getMarketCapsAux ids attempts maxR d fuel attempt =
        (fetchWithValidation ids (attempts maxR),
          (List.range (fuel - 1)).map
            (fun k => d * 2 ^ (attempt - 1 + k))) := by
  intro fuel
  induction fuel with
  | zero => intro attempt hf _ _; omega
  | succ f ih =>
    intro attempt _ hatt hsum
    have hle : attempt ≤ maxR := by omega
    obtain ⟨e, he, hre⟩ := hall attempt hatt hle
    unfold getMarketCapsAux
    rw [he]
    simp only []
    by_cases hlast : attempt = maxR
    · have hf : f = 0 := by omega
      subst hf
      have hcond : (retryable e && attempt != maxR) = false := by
        simp [hlast]
      rw [hcond]
      subst hlast
      rw [he]
      simp
    · have hf : 1 ≤ f := by omega
      have hcond : (retryable e && attempt != maxR) = true := by
        simp [hre, hlast]
      rw [hcond]
      simp only [if_true]
      rw [ih (attempt + 1) hf (by omega) (by omega)]
      have hrange : List.range (f + 1 - 1) =
          List.range ((f - 1) + 1) := by
        congr 1
        omega
      rw [hrange, List.range_succ_eq_map]
      simp only [List.map_cons, List.map_map]
      congr 1
      refine congrArg₂ List.cons (by norm_num) ?_
      apply List.map_congr_left
      intro k _
      simp only [Function.comp]
      have hexp : attempt + 1 - 1 + k = attempt - 1 + k.succ := by omega
      rw [hexp]

/-- Claim C7 (amended): the loop of `get_market_caps` retries exactly the
failures surfacing as `APIConnectionError` — connection failures, timeouts
and malformed (non-JSON) responses — up to `max_retries` attempts with
exponential backoff `retry_delay·2^(attempt−1)`; every other failure
propagates immediately on the first attempt with no retry and no backoff,
**including HTTP 404** (which `raise_for_status` turns into an uncaught
`HTTPError`), authentication failures (401) and absent data. -/
theorem retry_policy (ids : List String) (attempts : Nat → Attempt)
    (maxR : Nat) (d : ℚ) (hmax : 1 ≤ maxR) :
    retryable .apiConnection = true ∧
    retryable .apiAuth = false ∧
    retryable (.httpStatus 404) = false ∧
    retryable .dataUnavailable = false ∧
    (∀ l, retryable (.missingData l) = false) ∧
    fetchWithValidation ids .timeout = .error .apiConnection ∧
    fetchWithValidation ids .invalidJson = .error .apiConnection ∧
    fetchWithValidation ids (.status 404) = .error (.httpStatus 404) ∧
    (∀ e, fetchWithValidation ids (attempts 1) = .error e →
      retryable e = false →
      get_market_caps ids attempts maxR d = (.error e, [])) ∧
    ((∀ i, 1 ≤ i → i ≤ maxR →
        ∃ e, fetchWithValidation ids (attempts i) = .error e ∧
          retryable e = true) →
      get_market_caps ids attempts maxR d =
        (fetchWithValidation ids (attempts maxR),
          (List.range (maxR - 1)).map (fun k => d * 2 ^ k))) := by
  refine ⟨rfl, rfl, rfl, rfl, fun l => rfl, rfl, rfl, rfl, ?_, ?_⟩
  · intro e he hre
    obtain ⟨n, rfl⟩ : ∃ n, maxR = n + 1 := ⟨maxR - 1, by omega⟩
    unfold get_market_caps getMarketCapsAux
    rw [he]
    simp only []
    have hcond : (retryable e && (1 : Nat) != n + 1) = false := by
      simp [hre]
    rw [hcond]
    simp
  · intro hall
    have h := getMarketCapsAux_all_retryable ids attempts maxR d hall
      maxR 1 hmax (le_refl 1) (by omega)
    unfold get_market_caps
    rw [h]
    simp

/-- Claim C7, counterexample.  With `max_retries = 3`, `retry_delay = 5`:
an HTTP 404 on the first attempt propagates immediately — no retry, no
backoff sleep — contradicting the claim that 404 is retryable; while a
malformed (non-JSON) response **is** retried through all three attempts
with backoff sleeps 5 and 10, contradicting the claim that a malformed
response propagates immediately. -/
theorem http404_not_retried_counterexample :
    get_market_caps ["I00010"] (fun _ => .status 404) 3 5 =
      (.error (.httpStatus 404), []) ∧
    get_market_caps ["I00010"] (fun _ => .invalidJson) 3 5 =
      (.error .apiConnection, [5, 10]) := by
  constructor
  · norm_num [get_market_caps, getMarketCapsAux, fetchWithValidation,
      retryable]
  · norm_num [get_market_caps, getMarketCapsAux, fetchWithValidation,
      retryable]

/-- Claim C7, witness: three consecutive connection failures exhaust the
three attempts with backoff sleeps `5·2⁰ = 5` and `5·2¹ = 10`, by the
all-retryable clause of the retry-policy theorem. -/
theorem retry_policy_witness :
    get_market_caps ["I00010"] (fun _ => .connectionFailure) 3 5 =
      (.error .apiConnection, [5, 10]) := by
  have h := (retry_policy ["I00010"] (fun _ => .connectionFailure) 3 5
    (by norm_num)).2.2.2.2.2.2.2.2.2
  have h2 := h (fun i h1 hi => ⟨.apiConnection, rfl, rfl⟩)
  rw [h2]
  norm_num [fetchWithValidation, List.range_succ]

/-! ### Claim C8 -/

/-- The per-row returns loop succeeds, returning the rows unchanged (null
markers included), when every `requestId` is a mapped identifier. -/
theorem processReturnRows_ok (idMap : List (String × String))
    (rrows : List WRow)
    (hids : ∀ r ∈ rrows, r.1 ∈ idMap.map (·.1)) :
    processReturnRows idMap rrows = .ok rrows := by
  induction rrows with
  | nil => rfl
  | cons r rest ih =>
    obtain ⟨rid, v⟩ := r
    have hmem : rid ∈ idMap.map (·.1) :=
      hids (rid, v) (List.mem_cons_self _ _)
    have hcont : (idMap.map (·.1)).contains rid = true := by
      simpa using hmem
    unfold processReturnRows
    rw [hcont]
    simp only [if_true]
    rw [ih (fun r hr => hids r (List.mem_cons_of_mem _ hr))]

/-- Claim C8, counterexample.  A returns fetch mapping two identifiers
whose response holds one row fails with a `DataNotAvailableError`
("Unexpected response structure …", reporting row counts), not with a
missing-data condition naming the absent identifier `B`. -/
theorem returns_absent_id_counterexample :
    fetchReturnsWithValidation [("A", "FA"), ("B", "FB")]
      (.rows [("A", some 1)]) = .error .dataUnavailable ∧
    fetchReturnsWithValidation [("A", "FA"), ("B", "FB")]
      (.rows [("A", some 1)]) ≠ .error (.missingData ["B"]) := by
  constructor
  · simp [fetchReturnsWithValidation]
  · simp [fetchReturnsWithValidation]

/-- Claim C8 (amended): in the market-cap fetch a null/non-numeric value is
fatal with a `MissingDataError` naming exactly the null identifiers, and an
identifier absent from the response is reported — through the row-count
check — with a `MissingDataError` naming exactly the requested ids missing
from the response.  In the returns fetch a null return value is tolerated
(the row is kept with its null marker), but an identifier absent from the
response rows trips the earlier row-count check and fails with a
`DataNotAvailableError` that reports only row counts, not a missing-data
condition naming the identifier. -/
theorem missing_data_policy (ids : List String) (rs : List WRow)
    (idMap : List (String × String)) (rrows : List WRow) :
    (rs ≠ [] → (rs.filter (fun r => r.2.isNone)).map (·.1) ≠ [] →
      fetchWithValidation ids (.rows rs) =
        .error (.missingData ((rs.filter (fun r => r.2.isNone)).map (·.1))) ∧
      (∀ a, a ∈ (rs.filter (fun r => r.2.isNone)).map (·.1) ↔
        (a, (none : Option ℚ)) ∈ rs)) ∧
    (rs ≠ [] → (∀ r ∈ rs, r.2 ≠ none) → rs.length ≠ ids.length →
      fetchWithValidation ids (.rows rs) =
        .error (.missingData
          (ids.filter (fun i => !(rs.map (·.1)).contains i))) ∧
      (∀ a, a ∈ ids.filter (fun i => !(rs.map (·.1)).contains i) ↔
        a ∈ ids ∧ a ∉ rs.map (·.1))) ∧
    (rrows ≠ [] → rrows.length ≠ idMap.length →
      fetchReturnsWithValidation idMap (.rows rrows) =
        .error .dataUnavailable) ∧
    (rrows ≠ [] → rrows.length = idMap.length →
      (∀ r ∈ rrows, r.1 ∈ idMap.map (·.1)) →
      fetchReturnsWithValidation idMap (.rows rrows) = .ok rrows) := by
  refine ⟨?_, ?_, ?_, ?_⟩
  · intro hne hnulls
    have hempty : rs.isEmpty = false := List.isEmpty_eq_false.mpr hne
    have hne2 : (!((rs.filter (fun r => r.2.isNone)).map (·.1)).isEmpty)
        = true := by
      simp [List.isEmpty_eq_false.mpr hnulls]
    constructor
    · simp only [fetchWithValidation, hempty, Bool.false_eq_true, if_false]
      rw [if_pos hne2]
    · intro a
      constructor
      · intro h
        rcases List.mem_map.mp h with ⟨r, hr, rfl⟩
        rcases List.mem_filter.mp hr with ⟨hmem, hnone⟩
        obtain ⟨id, w?⟩ := r
        cases w? with
        | none => exact hmem
        | some w => simp at hnone
      · intro h
        exact List.mem_map.mpr ⟨(a, none),
          List.mem_filter.mpr ⟨h, rfl⟩, rfl⟩
  · intro hne hnonull hlen
    have hempty : rs.isEmpty = false := List.isEmpty_eq_false.mpr hne
    have hnulls : ((rs.filter (fun r => r.2.isNone)).map (·.1)) = [] := by
      rw [List.map_eq_nil_iff, List.filter_eq_nil_iff]
      intro r hr
      simp [Option.isNone_iff_eq_none, hnonull r hr]
    constructor
    · simp only [fetchWithValidation, hempty, Bool.false_eq_true, if_false]
      rw [hnulls]
      simp only [List.isEmpty_nil, Bool.not_true, Bool.false_eq_true,
        if_false]
      rw [if_pos hlen]
    · intro a
      constructor
      · intro h
        rcases List.mem_filter.mp h with ⟨hmem, hcont⟩
        refine ⟨hmem, ?_⟩
        intro habs
        simp [habs] at hcont
      · rintro ⟨hmem, habs⟩
        refine List.mem_filter.mpr ⟨hmem, ?_⟩
        simp [habs]
  · intro hne hlen
    have hempty : rrows.isEmpty = false := List.isEmpty_eq_false.mpr hne
    simp only [fetchReturnsWithValidation, hempty, Bool.false_eq_true,
      if_false]
    rw [if_pos hlen]
  · intro hne hlen hids
    have hempty : rrows.isEmpty = false := List.isEmpty_eq_false.mpr hne
    simp only [fetchReturnsWithValidation, hempty, Bool.false_eq_true,
      if_false]
    rw [if_neg (by omega : ¬ rrows.length ≠ idMap.length)]
    rw [processReturnRows_ok idMap rrows hids]
    simp only []
    rw [if_neg (by omega : ¬ rrows.length ≠ idMap.length)]

/-- Claim C8, witness: the null-value clause at a concrete market-cap
response — identifier `A` comes back null, the fetch fails naming exactly
`A`. -/
theorem missing_data_policy_witness :
    fetchWithValidation ["A", "B"]
      (.rows [("A", none), ("B", some 2)]) =
      .error (.missingData ["A"]) := by
  have h := (missing_data_policy ["A", "B"]
    [("A", none), ("B", some 2)] [] []).1 (by simp) (by simp)
  have h2 := h.1
  simpa using h2

/-! ### Claim C9 -/

/-- A nonzero post-merge weight can only come from a present row. -/
theorem wlookup_ne_zero_mem (tbl : List (String × ℚ)) (a : String)
    (h : wlookup tbl a ≠ 0) : a ∈ tbl.map (·.1) := by
  unfold wlookup at h
  cases hf : tbl.find? (fun r => r.1 == a) with
  | none => rw [hf] at h; exact absurd rfl h
  | some r =>
    have hmem := List.mem_of_find?_eq_some hf
    have hbeq := List.find?_some hf
    have : r.1 = a := by simpa using hbeq
    exact this ▸ List.mem_map.mpr ⟨r, hmem, rfl⟩

/-- Membership in a table's key column implies membership in the merged
(outer-join) id column. -/
theorem mem_mergedIds_of_mem (current previous : List (String × ℚ))
    (a : String)
    (h : a ∈ current.map (·.1) ∨ a ∈ previous.map (·.1)) :
    a ∈ mergedIds current previous := by
  unfold mergedIds
  rcases h with h | h
  · exact List.mem_append_left _ h
  · by_cases hc : a ∈ current.map (·.1)
    · exact List.mem_append_left _ hc
    · refine List.mem_append_right _ (List.mem_filter.mpr ⟨h, ?_⟩)
      simp [hc]

/-- Claim C9: in every reconciliation report an id is listed as new iff its
previous weight (absent row ↦ 0) is zero and its current weight strictly
positive, listed as removed iff the reverse, and never both; ids with
weight 0 on both days are in neither list.  (The association-list model
assumes unique ids per table, as a pandas merge on duplicate keys
multiplies rows.) -/
theorem new_removed_characterization (threshold : ℚ)
    (current previous : List (String × ℚ)) (a : String)
    (hc : (current.map (·.1)).Nodup) (hp : (previous.map (·.1)).Nodup) :
    (a ∈ (compare_with_previous threshold current previous).new_components
      ↔ wlookup previous a = 0 ∧ 0 < wlookup current a) ∧
    (a ∈ (compare_with_previous threshold current
        previous).removed_components
      ↔ 0 < wlookup previous a ∧ wlookup current a = 0) ∧
    ¬ (a ∈ (compare_with_previous threshold current previous).new_components
        ∧ a ∈ (compare_with_previous threshold current
          previous).removed_components) := by
  have hnew : a ∈ (compare_with_previous threshold current
      previous).new_components
      ↔ wlookup previous a = 0 ∧ 0 < wlookup current a := by
    unfold compare_with_previous
    simp only []
    constructor
    · intro h
      rcases List.mem_filter.mp h with ⟨_, hcond⟩
      rw [Bool.and_eq_true] at hcond
      rcases hcond with ⟨h1, h2⟩
      exact ⟨by simpa using h1, by simpa using h2⟩
    · rintro ⟨h1, h2⟩
      refine List.mem_filter.mpr ⟨?_, ?_⟩
      · exact mem_mergedIds_of_mem current previous a
          (Or.inl (wlookup_ne_zero_mem current a (ne_of_gt h2)))
      · rw [Bool.and_eq_true]
        exact ⟨by simpa using h1, by simpa using h2⟩
  have hrem : a ∈ (compare_with_previous threshold current
      previous).removed_components
      ↔ 0 < wlookup previous a ∧ wlookup current a = 0 := by
    unfold compare_with_previous
    simp only []
    constructor
    · intro h
      rcases List.mem_filter.mp h with ⟨_, hcond⟩
      rw [Bool.and_eq_true] at hcond
      rcases hcond with ⟨h1, h2⟩
      exact ⟨by simpa using h1, by simpa using h2⟩
    · rintro ⟨h1, h2⟩
      refine List.mem_filter.mpr ⟨?_, ?_⟩
      · exact mem_mergedIds_of_mem current previous a
          (Or.inr (wlookup_ne_zero_mem previous a (ne_of_gt h1)))
      · rw [Bool.and_eq_true]
        exact ⟨by simpa using h1, by simpa using h2⟩
  refine ⟨hnew, hrem, ?_⟩
  rintro ⟨h1, h2⟩
  have e1 := (hnew.mp h1).1
  have e2 := (hrem.mp h2).1
  exact absurd e1 (ne_of_gt e2)

/-- Claim C9, witness: `LSE80_I01270` drops from weight `6.10` to `0` and
is reported as removed (and not as new), per the characterisation theorem
at concrete tables. -/
theorem new_removed_characterization_witness :
    "LSE80_I01270" ∈ (compare_with_previous 5
      [("LSE80_I01270", 0)] [("LSE80_I01270", 61/10)]).removed_components ∧
    "LSE80_I01270" ∉ (compare_with_previous 5
      [("LSE80_I01270", 0)] [("LSE80_I01270", 61/10)]).new_components := by
  have h := new_removed_characterization 5
    [("LSE80_I01270", 0)] [("LSE80_I01270", 61/10)] "LSE80_I01270"
    (by simp) (by simp)
  constructor
  · refine h.2.1.mpr ?_
    constructor
    · norm_num [wlookup, List.find?]
    · norm_num [wlookup, List.find?]
  · intro hmem
    have := (h.1.mp hmem).1
    norm_num [wlookup, List.find?] at this

/-! ### Claim C10 -/

/-- Claim C10: the previous-run lookup consults exactly the day before the
run date.  When that day has no latest file the lookup returns nothing —
regardless of what older days hold — and the runner's reconciliation step
yields the empty, no-alert report. -/
theorem previous_run_only_prior_day
    (store : Nat → Option (List (String × ℚ))) (day : Nat) (threshold : ℚ)
    (current : List (String × ℚ)) (h : store (day - 1) = none) :
    get_previous_run store day = none ∧
    runnerReconcile true threshold store day current = emptyReport ∧
    (runnerReconcile true threshold store day current).alerts = [] := by
  refine ⟨h, ?_, ?_⟩ <;>
    simp [runnerReconcile, get_previous_run, h, emptyReport]

/-- Claim C10, witness: with a store holding a run two days back (day 5)
but nothing on day 6, a day-7 reconciliation finds no previous run and
reports nothing, even though older data exists on disk. -/
theorem previous_run_only_prior_day_witness :
    get_previous_run
      (fun n => if n = 5 then some [("LSE80_I01270", 61/10)] else none) 7
      = none ∧
    (fun n => if n = 5 then some [("LSE80_I01270", 61/10)] else none) 5
      ≠ none ∧
    runnerReconcile true 5
      (fun n => if n = 5 then some [("LSE80_I01270", 61/10)] else none) 7
      [("LSE80_I01270", 3)] = emptyReport := by
  have h := previous_run_only_prior_day
    (fun n => if n = 5 then some [("LSE80_I01270", 61/10)] else none) 7 5
    [("LSE80_I01270", 3)] (by norm_num)
  exact ⟨h.1, by simp, h.2.1⟩

end Vanguard
